import Mathlib

/-!
Verification of the obj3d.py mesh viewer.

The embedding models the program's core functions over exact arithmetic:
file contents are lists of lines (each line without its trailing newline),
Python floats are modelled as rationals parsed by an explicit decimal
parser, Python exceptions are modelled with Option (none = an exception
was raised), and the pygame event-loop body is a pure transition function
on an explicit viewer state.  Normal computation is modelled over the
reals, where the square root is exact.
-/

attribute [local semireducible] Rat.mul Rat.add Rat.sub Rat.inv

/-- A vertex as appended by load_obj: a triple (x, y, z). -/
abbrev Vertex := ℚ × ℚ × ℚ

/-- Accumulator digits-to-number conversion used by the float model. -/
def digitsToNat (ds : List Char) : Nat :=
  ds.foldl (fun n c => 10 * n + (c.toNat - '0'.toNat)) 0

/-- Splits a char list into its leading digits and the rest. -/
def takeDigits (cs : List Char) : List Char × List Char :=
  (cs.takeWhile Char.isDigit, cs.dropWhile Char.isDigit)

/-- Models the Python builtin float() on finite decimal literals:
an optional sign, digits with an optional fractional part (at least one
digit overall), and an optional exponent.  Returns none when float()
would raise ValueError.  (Special forms such as inf and nan, and
underscore separators, are outside the model.) -/
def pyFloat? (s : String) : Option ℚ :=
  let cs := s.data
  let (sgn, cs) :=
    match cs with
    | '-' :: rest => ((-1 : ℚ), rest)
    | '+' :: rest => ((1 : ℚ), rest)
    | _ => ((1 : ℚ), cs)
  let (ip, cs) := takeDigits cs
  let (fp, cs) :=
    match cs with
    | '.' :: rest => takeDigits rest
    | _ => (([] : List Char), cs)
  if ip.isEmpty && fp.isEmpty then none
  else
    let mant : ℚ := sgn * ((digitsToNat (ip ++ fp) : ℚ) / (10 : ℚ) ^ fp.length)
    match cs with
    | [] => some mant
    | e :: rest =>
      if e = 'e' ∨ e = 'E' then
        let (eneg, rest) :=
          match rest with
          | '-' :: r => (true, r)
          | '+' :: r => (false, r)
          | _ => (false, rest)
        let (ed, rest) := takeDigits rest
        if ed.isEmpty ∨ ¬ rest.isEmpty then none
        else some (if eneg then mant / (10 : ℚ) ^ digitsToNat ed
                   else mant * (10 : ℚ) ^ digitsToNat ed)
      else none

/-- Accumulating worker for pyTokens: collects maximal runs of
non-whitespace characters (the current run is carried reversed). -/
def splitWsAux : List Char → List Char → List (List Char)
  | acc, [] => if acc.isEmpty then [] else [acc.reverse]
  | acc, c :: rest =>
    if c.isWhitespace then
      if acc.isEmpty then splitWsAux [] rest
      else acc.reverse :: splitWsAux [] rest
    else splitWsAux (c :: acc) rest

/-- Models line.strip().split() from load_obj: whitespace tokenization
dropping empty tokens (which also subsumes the strip). -/
def pyTokens (line : String) : List String :=
  (splitWsAux [] line.data).map String.mk

/-- Models Python int() as applied to a face-reference index: an
optional sign followed by at least one digit; none models ValueError.
(Underscore separators and surrounding whitespace are outside the
model; split() tokens contain no whitespace.) -/
def pyInt? (s : String) : Option Int :=
  let digits? : List Char → Option Nat := fun ds =>
    if ds.isEmpty then none
    else if ds.all Char.isDigit then some (digitsToNat ds) else none
  match s.data with
  | '-' :: ds => (digits? ds).map (fun n => -(n : Int))
  | '+' :: ds => (digits? ds).map (fun n => (n : Int))
  | ds => (digits? ds).map (fun n => (n : Int))

/-- Models line.startswith('#') from load_obj. -/
def startsHash (line : String) : Bool :=
  match line.data with
  | '#' :: _ => true
  | _ => false

/-- Models v.split('/')[0] from load_obj: the part of a face-reference
token before its first '/' (the whole token when it has no '/'). -/
def posComponent (tok : String) : String :=
  String.mk (tok.data.takeWhile fun c => c ≠ '/')

/-- Models the face-token loop of load_obj (lines 41-46): for each token,
the position component is kept when nonempty and parsed by int() with 1
subtracted; none models the ValueError raised by int() on a non-numeric
nonempty component. -/
def faceIndices : List String → Option (List Int)
  | [] => some []
  | tok :: rest =>
    let idx := posComponent tok
    if idx = "" then faceIndices rest
    else
      match pyInt? idx with
      | some k => (faceIndices rest).map (fun l => (k - 1) :: l)
      | none => none

/-- Models the triangulation step of load_obj (lines 47-54): a resolved
face with fewer than 3 indices yields nothing, exactly 3 is kept as one
triangle, and more than 3 is fan-decomposed over range(1, len(face)-1). -/
def trianglesOfFace (face : List Int) : List (List Int) :=
  if 3 ≤ face.length then
    if face.length = 3 then [face]
    else
      (List.range' 1 (face.length - 2)).map
        (fun i => [face.getD 0 0, face.getD i 0, face.getD (i + 1) 0])
  else []

/-- Models the vertex-line body of load_obj (line 38): x, y, z =
map(float, parts[1:4]).  none models the ValueError raised when fewer
than three tokens follow, or when a token is not numeric. -/
def parseVertex : List String → Option Vertex
  | a :: b :: c :: _ =>
    match pyFloat? a, pyFloat? b, pyFloat? c with
    | some x, some y, some z => some (x, y, z)
    | _, _, _ => none
  | _ => none

/-- Models the dispatch on parts[0] in load_obj (lines 35-54), acting on
the accumulated (verts, faces) state; none models an escaping exception. -/
def processTokens (st : List Vertex × List (List Int)) :
    List String → Option (List Vertex × List (List Int))
  | [] => some st
  | p0 :: args =>
    if p0 = "v" then
      (parseVertex args).map (fun vtx => (st.1 ++ [vtx], st.2))
    else if p0 = "f" then
      (faceIndices args).map (fun face => (st.1, st.2 ++ trianglesOfFace face))
    else some st

/-- Models one iteration of the line loop of load_obj (lines 31-54):
comment lines are skipped before stripping, then the tokens are
dispatched. -/
def processLine (st : List Vertex × List (List Int)) (line : String) :
    Option (List Vertex × List (List Int)) :=
  if startsHash line then some st
  else processTokens st (pyTokens line)

/-- The line loop of load_obj under its try/except: an exception on any
line stops the loop and the state accumulated so far is what the
function returns (lines 29-57). -/
def loadGo (st : List Vertex × List (List Int)) :
    List String → List Vertex × List (List Int)
  | [] => st
  | l :: rest =>
    match processLine st l with
    | some st2 => loadGo st2 rest
    | none => st

/-- Models load_obj (lines 22-57) on a file given as its list of lines. -/
def load_obj (lines : List String) : List Vertex × List (List Int) :=
  loadGo ([], []) lines

/-- Runs processLine over a list of lines, failing if any line raises:
used to speak about the lines preceding a failing line. -/
def processLines (st : List Vertex × List (List Int)) :
    List String → Option (List Vertex × List (List Int))
  | [] => some st
  | l :: rest =>
    match processLine st l with
    | some st2 => processLines st2 rest
    | none => none

/-- Python list subscription as performed by draw_mesh (verts[idx],
lines 73-79): a negative index counts from the end of the list; none
models the IndexError raised when the index is out of range either way. -/
def pyGet (l : List α) (i : Int) : Option α :=
  if 0 ≤ i then l.get? i.toNat
  else if 0 ≤ i + l.length then l.get? (i + l.length).toNat else none

/-- Models the stream of vertices draw_mesh passes to glVertex3f
(lines 70-80): for every face, verts[idx] for each of its indices in
order. -/
def draw_mesh (verts : List Vertex) (faces : List (List Int)) :
    List (Option Vertex) :=
  (faces.map (fun f => f.map (fun idx => pyGet verts idx))).flatten

/-- A point of real 3-space, for the normal computation. -/
abbrev V3 := ℝ × ℝ × ℝ

/-- Componentwise vector difference, modelling np.array(v1) - np.array(v0)
in compute_normal. -/
def vsub (u v : V3) : V3 :=
  (u.1 - v.1, u.2.1 - v.2.1, u.2.2 - v.2.2)

/-- Models np.cross on 3-vectors as used in compute_normal. -/
def cross (a b : V3) : V3 :=
  (a.2.1 * b.2.2 - a.2.2 * b.2.1,
   a.2.2 * b.1 - a.1 * b.2.2,
   a.1 * b.2.1 - a.2.1 * b.1)

/-- Models np.linalg.norm on a 3-vector: the square root of the sum of
the squared components. -/
noncomputable def vnorm (v : V3) : ℝ :=
  Real.sqrt (v.1 ^ 2 + v.2.1 ^ 2 + v.2.2 ^ 2)

/-- Models compute_normal (lines 60-67) over exact real arithmetic,
with the locals a = v1 - v0, b = v2 - v0 and n = cross(a, b) inlined:
if the norm of n is zero the fallback (0, 0, 1) is returned, otherwise
n divided by its norm. -/
noncomputable def compute_normal (v0 v1 v2 : V3) : V3 :=
  if vnorm (cross (vsub v1 v0) (vsub v2 v0)) = 0 then (0, 0, 1)
  else ((cross (vsub v1 v0) (vsub v2 v0)).1 / vnorm (cross (vsub v1 v0) (vsub v2 v0)),
        (cross (vsub v1 v0) (vsub v2 v0)).2.1 / vnorm (cross (vsub v1 v0) (vsub v2 v0)),
        (cross (vsub v1 v0) (vsub v2 v0)).2.2 / vnorm (cross (vsub v1 v0) (vsub v2 v0)))

/-- The keys distinguished by the KEYDOWN branch of the event loop
(lines 154-166); other covers every key the loop ignores. -/
inductive Key where
  | escape | o | r | up | down | other
deriving DecidableEq

/-- The pygame events the main loop reacts to (lines 151-184).  Mouse
buttons are numbered as in pygame: 1 = left, 4 = wheel up, 5 = wheel
down. -/
inductive Event where
  | quit
  | keydown (key : Key)
  | mousedown (button : Nat) (pos : Int × Int)
  | mouseup (button : Nat)
  | mousemotion (pos : Int × Int)
deriving DecidableEq

/-- The mutable locals of main that the event loop reads and writes
(lines 140-149): the active mesh, the camera scalars, the drag state
and the loop flag. -/
structure ViewerState where
  verts : List Vertex
  faces : List (List Int)
  zoom : ℚ
  rot_x : ℚ
  rot_y : ℚ
  mouse_down : Bool
  last_mouse : Int × Int
  running : Bool
deriving DecidableEq

/-- The state of main just before the loop starts (lines 140-149),
holding a given mesh. -/
def init_state (verts : List Vertex) (faces : List (List Int)) : ViewerState :=
  { verts := verts, faces := faces, zoom := 5, rot_x := 0, rot_y := 0,
    mouse_down := false, last_mouse := (0, 0), running := true }

/-- Models the body of the event dispatch in main (lines 151-184) as a
pure transition.  The two external collaborators are passed in: fs
gives the lines of the file at a path, and dialog is what
open_file_dialog would return when the o-key branch calls it (the empty
string models a cancelled dialog, which Python tests with
"if newpath:"). -/
def handle_event (fs : String → List String) (dialog : String)
    (st : ViewerState) (e : Event) : ViewerState :=
  match e with
  | .quit => { st with running := false }
  | .keydown k =>
    match k with
    | .escape => { st with running := false }
    | .o =>
      if dialog ≠ "" then
        { st with verts := (load_obj (fs dialog)).1,
                  faces := (load_obj (fs dialog)).2 }
      else st
    | .r => { st with rot_x := 0, rot_y := 0 }
    | .up => { st with zoom := st.zoom - 1 }
    | .down => { st with zoom := st.zoom + 1 }
    | .other => st
  | .mousedown b pos =>
    if b = 1 then { st with mouse_down := true, last_mouse := pos }
    else if b = 4 then { st with zoom := st.zoom - 1/2 }
    else if b = 5 then { st with zoom := st.zoom + 1/2 }
    else st
  | .mouseup b => if b = 1 then { st with mouse_down := false } else st
  | .mousemotion pos =>
    if st.mouse_down then
      { st with
          rot_x := st.rot_x + ((pos.2 - st.last_mouse.2 : Int) : ℚ) * (1/2),
          rot_y := st.rot_y + ((pos.1 - st.last_mouse.1 : Int) : ℚ) * (1/2),
          last_mouse := pos }
    else st

theorem loadGo_processLines (pre : List String) :
    ∀ (st0 st : List Vertex × List (List Int)),
      processLines st0 pre = some st →
      ∀ rest, loadGo st0 (pre ++ rest) = loadGo st rest := by
  induction pre with
  | nil =>
    intro st0 st h rest
    simp only [processLines, Option.some.injEq] at h
    subst h
    rfl
  | cons l ls ih =>
    intro st0 st h rest
    cases hpl : processLine st0 l with
    | some st2 =>
      simp only [processLines, hpl] at h
      simp only [List.cons_append, loadGo, hpl]
      exact ih st2 st h rest
    | none =>
      simp only [processLines, hpl] at h
      exact Option.noConfusion h

/-- C1 counterexample: the file "v 0 0 0" / "f 1 2 100" makes load_obj
return one vertex and the triangle [0, 1, 99], whose index 99 is not
below the length of the vertex sequence, so the claimed invariant fails. -/
theorem load_obj_range_cex :
    ¬ (∀ tri ∈ (load_obj ["v 0 0 0", "f 1 2 100"]).2,
        ∀ idx ∈ tri,
          idx < ((load_obj ["v 0 0 0", "f 1 2 100"]).1.length : Int)) := by
  decide

/-- C1 (amended): load_obj applies no range filtering to face
references, so for some file contents a returned triangle carries an
index that is not below the length of the returned vertex sequence. -/
theorem load_obj_no_range_filter :
    ∃ lines : List String, ∃ tri ∈ (load_obj lines).2, ∃ idx ∈ tri,
      ¬ idx < ((load_obj lines).1.length : Int) :=
  ⟨["v 0 0 0", "f 1 2 100"], by decide⟩

/-- C2 counterexample: on a file whose second line "v 1 2" raises (two
numeric tokens only), load_obj stops there but returns the vertex parsed
from the first line, not empty sequences; the third line is never
processed. -/
theorem load_obj_abort_cex :
    load_obj ["v 1 2 3", "v 1 2", "v 4 5 6"] = ([((1:ℚ), (2:ℚ), (3:ℚ))], []) ∧
    load_obj ["v 1 2 3", "v 1 2", "v 4 5 6"] ≠ ([], []) := by
  decide

/-- C2 (amended): when a line raises a parse exception, load_obj aborts
at that point (later lines are never processed, the exception being
caught at the top level), and returns exactly the vertex and face
sequences accumulated before the failing line — empty only when nothing
parsed before it. -/
theorem load_obj_abort_partial (pre : List String) (line : String)
    (post : List String) (st : List Vertex × List (List Int))
    (h1 : processLines ([], []) pre = some st)
    (h2 : processLine st line = none) :
    load_obj (pre ++ line :: post) = st := by
  rw [load_obj, loadGo_processLines pre ([], []) st h1 (line :: post)]
  simp only [loadGo, h2]

/-- Witness for C2 (amended) at the counterexample file: the first line
parses to state ([(1,2,3)], []), the line "v 1 2" raises, and load_obj
of the whole file returns that accumulated state. -/
theorem load_obj_abort_partial_witness :
    processLines ([], []) ["v 1 2 3"] = some ([((1:ℚ), (2:ℚ), (3:ℚ))], []) ∧
    processLine ([((1:ℚ), (2:ℚ), (3:ℚ))], []) "v 1 2" = none ∧
    load_obj (["v 1 2 3"] ++ "v 1 2" :: ["v 4 5 6"]) =
      ([((1:ℚ), (2:ℚ), (3:ℚ))], []) :=
  ⟨by decide, by decide,
    load_obj_abort_partial ["v 1 2 3"] "v 1 2" ["v 4 5 6"]
      ([((1:ℚ), (2:ℚ), (3:ℚ))], []) (by decide) (by decide)⟩

/-- C4: the face line "f 1 2 0" stores the reference "0" as index
0 - 1 = -1 with no lower-bound check, and draw_mesh's subscription
at -1 reads the last vertex of the sequence (Python negative indexing)
rather than failing. -/
theorem load_obj_negative_index :
    (load_obj ["v 0 0 0", "v 0 0 1", "v 0 1 0", "f 1 2 0"]).2 = [[0, 1, -1]] ∧
    pyGet (load_obj ["v 0 0 0", "v 0 0 1", "v 0 1 0", "f 1 2 0"]).1 (-1) =
      (load_obj ["v 0 0 0", "v 0 0 1", "v 0 1 0", "f 1 2 0"]).1.getLast? ∧
    draw_mesh (load_obj ["v 0 0 0", "v 0 0 1", "v 0 1 0", "f 1 2 0"]).1
        (load_obj ["v 0 0 0", "v 0 0 1", "v 0 1 0", "f 1 2 0"]).2 =
      [some ((0:ℚ), (0:ℚ), (0:ℚ)), some ((0:ℚ), (0:ℚ), (1:ℚ)),
       some ((0:ℚ), (1:ℚ), (0:ℚ))] := by
  decide

/-- C10: load_obj is a pure function of the file content, so two runs
on the same content return identical vertex sequences and identical
triangle sequences, in the same order. -/
theorem load_obj_deterministic (lines : List String)
    (r1 r2 : List Vertex × List (List Int))
    (h1 : r1 = load_obj lines) (h2 : r2 = load_obj lines) :
    r1.1 = r2.1 ∧ r1.2 = r2.2 := by
  subst h1; subst h2; exact ⟨rfl, rfl⟩

/-- Witness for C10 on a concrete file: two runs on the same two lines
agree componentwise. -/
theorem load_obj_deterministic_witness :
    (load_obj ["v 1 2 3", "f 1 1 1"]).1 = (load_obj ["v 1 2 3", "f 1 1 1"]).1 ∧
    (load_obj ["v 1 2 3", "f 1 1 1"]).2 = (load_obj ["v 1 2 3", "f 1 1 1"]).2 :=
  load_obj_deterministic ["v 1 2 3", "f 1 1 1"] _ _ rfl rfl

/-- C3 counterexample: with a previous one-vertex mesh active, the
o-key handler given a usable dialog path whose file is empty replaces
the active vertex sequence with the empty one: the mesh is swapped out,
not kept. -/
theorem reload_swap_cex :
    (handle_event (fun _ => []) "empty.obj"
        (init_state [((0:ℚ), (0:ℚ), (0:ℚ))] [[0, 0, 0]])
        (.keydown .o)).verts ≠
      (init_state [((0:ℚ), (0:ℚ), (0:ℚ))] [[0, 0, 0]]).verts := by
  decide

/-- C3 (amended): when the dialog returns a nonempty path, the o-key
handler unconditionally replaces the active vertex and triangle
sequences with load_obj's result; in particular an empty load result
leaves the viewer with an empty mesh regardless of the previous one.
Only a cancelled dialog leaves the state unchanged. -/
theorem reload_swaps_empty (fs : String → List String) (dialog : String)
    (st : ViewerState) (hd : dialog ≠ "")
    (he : load_obj (fs dialog) = ([], [])) :
    (handle_event fs dialog st (.keydown .o)).verts = [] ∧
    (handle_event fs dialog st (.keydown .o)).faces = [] := by
  simp [handle_event, hd, he]

/-- Witness for C3 (amended): a nonempty path to an empty file empties
both active sequences of a previously nonempty state. -/
theorem reload_swaps_empty_witness :
    ("empty.obj" ≠ "") ∧
    (handle_event (fun _ => []) "empty.obj"
        (init_state [((0:ℚ), (0:ℚ), (0:ℚ))] [[0, 0, 0]])
        (.keydown .o)).verts = [] ∧
    (handle_event (fun _ => []) "empty.obj"
        (init_state [((0:ℚ), (0:ℚ), (0:ℚ))] [[0, 0, 0]])
        (.keydown .o)).faces = [] := by
  have h := reload_swaps_empty (fun _ => []) "empty.obj"
      (init_state [((0:ℚ), (0:ℚ), (0:ℚ))] [[0, 0, 0]]) (by decide) rfl
  exact ⟨by decide, h.1, h.2⟩

/-- C9: while dragging, a mouse-move adds half the vertical delta to
rot_x and half the horizontal delta to rot_y, and stores the new
position as the last mouse position; nothing else changes. -/
theorem mouse_drag_update (fs : String → List String) (dialog : String)
    (st : ViewerState) (pos : Int × Int) (h : st.mouse_down = true) :
    handle_event fs dialog st (.mousemotion pos) =
      { st with
          rot_x := st.rot_x + ((pos.2 - st.last_mouse.2 : Int) : ℚ) * (1/2),
          rot_y := st.rot_y + ((pos.1 - st.last_mouse.1 : Int) : ℚ) * (1/2),
          last_mouse := pos } := by
  simp [handle_event, h]

/-- Witness for C9: from rot_x = rot_y = 0, a mouse-down at (100, 100)
followed by a move to (110, 115) yields rot_x = 7.5 and rot_y = 5. -/
theorem mouse_drag_update_witness :
    (handle_event (fun _ => []) "" (init_state [] [])
        (.mousedown 1 (100, 100))).mouse_down = true ∧
    (handle_event (fun _ => []) ""
        (handle_event (fun _ => []) "" (init_state [] [])
          (.mousedown 1 (100, 100)))
        (.mousemotion (110, 115))).rot_x = 15/2 ∧
    (handle_event (fun _ => []) ""
        (handle_event (fun _ => []) "" (init_state [] [])
          (.mousedown 1 (100, 100)))
        (.mousemotion (110, 115))).rot_y = 5 := by
  have h := mouse_drag_update (fun _ => []) ""
      (handle_event (fun _ => []) "" (init_state [] [])
        (.mousedown 1 (100, 100)))
      (110, 115) (by decide)
  refine ⟨by decide, ?_, ?_⟩ <;> rw [h] <;> decide

/-- C5: a face resolving to fewer than 3 indices contributes no
triangle, one of exactly 3 contributes that triangle unmodified, and an
n-gon with n greater than 3 contributes the n - 2 fan triangles
(face[0], face[i], face[i+1]) for i from 1 to n - 2, in that order. -/
theorem fan_decomposition (face : List Int) :
    (face.length < 3 → trianglesOfFace face = []) ∧
    (face.length = 3 → trianglesOfFace face = [face]) ∧
    (3 < face.length →
      trianglesOfFace face =
        (List.range' 1 (face.length - 2)).map
          (fun i => [face.getD 0 0, face.getD i 0, face.getD (i + 1) 0]) ∧
      (trianglesOfFace face).length = face.length - 2) := by
  refine ⟨?_, ?_, ?_⟩
  · intro h
    simp only [trianglesOfFace]
    rw [if_neg (by omega)]
  · intro h
    simp only [trianglesOfFace]
    rw [if_pos (by omega), if_pos h]
  · intro h
    have h3 : 3 ≤ face.length := by omega
    have hne : ¬ face.length = 3 := by omega
    simp only [trianglesOfFace]
    rw [if_pos h3, if_neg hne]
    exact ⟨rfl, by rw [List.length_map, List.length_range']⟩

/-- Witness for C5: the 5-index face [10, 20, 30, 40, 50] fans into the
three triangles anchored at its first index. -/
theorem fan_decomposition_witness :
    3 < ([10, 20, 30, 40, 50] : List Int).length ∧
    trianglesOfFace [10, 20, 30, 40, 50] =
      [[10, 20, 30], [10, 30, 40], [10, 40, 50]] := by
  have h := ((fan_decomposition [10, 20, 30, 40, 50]).2.2 (by decide)).1
  exact ⟨by decide, by rw [h]; decide⟩

theorem takeWhile_all {q : Char → Bool} :
    ∀ l : List Char, (∀ c ∈ l, q c = true) → l.takeWhile q = l := by
  intro l
  induction l with
  | nil => intro _; rfl
  | cons c cs ih =>
    intro h
    have hq : q c = true := h c (by simp)
    simp only [List.takeWhile_cons, hq, if_true]
    exact congrArg (c :: ·) (ih (fun x hx => h x (by simp [hx])))

theorem takeWhile_stop {q : Char → Bool} :
    ∀ (l₁ : List Char) (c : Char) (l₂ : List Char),
      (∀ x ∈ l₁, q x = true) → q c = false →
      (l₁ ++ c :: l₂).takeWhile q = l₁ := by
  intro l₁
  induction l₁ with
  | nil =>
    intro c l₂ _ hc
    simp [List.takeWhile_cons, hc]
  | cons a as ih =>
    intro c l₂ h hc
    have hq : q a = true := h a (by simp)
    simp only [List.cons_append, List.takeWhile_cons, hq, if_true]
    exact congrArg (a :: ·) (ih c l₂ (fun x hx => h x (by simp [hx])) hc)

theorem posComponent_eq_self (p : String) (hp : ∀ c ∈ p.data, c ≠ '/') :
    posComponent p = p := by
  unfold posComponent
  rw [takeWhile_all p.data (fun c hc => by simpa using hp c hc)]

theorem posComponent_append (p s : String) (hp : ∀ c ∈ p.data, c ≠ '/') :
    posComponent (p ++ "/" ++ s) = p := by
  unfold posComponent
  have hd : (p ++ "/" ++ s).data = p.data ++ '/' :: s.data := by
    simp [String.data_append]
  rw [hd, takeWhile_stop p.data '/' s.data
    (fun c hc => by simpa using hp c hc) (by simp)]

theorem pyInt_ne_empty {p : String} {k : Int} (hk : pyInt? p = some k) :
    p ≠ "" := by
  intro h
  subst h
  simp [pyInt?] at hk

theorem faceIndices_cons_pos (tok p : String) (toks : List String)
    (hpc : posComponent tok = p) (k : Int) (hk : pyInt? p = some k) :
    faceIndices (tok :: toks) =
      (faceIndices toks).map (fun l => (k - 1) :: l) := by
  simp only [faceIndices, hpc]
  rw [if_neg (pyInt_ne_empty hk), hk]

theorem faceIndices_cons_empty (tok : String) (toks : List String)
    (hpc : posComponent tok = "") :
    faceIndices (tok :: toks) = faceIndices toks := by
  simp [faceIndices, hpc]

/-- C6: a face-reference token in any of the four sub-formats idx,
idx/t, idx//n, idx/t/n contributes only its position component (the
part before the first '/'), parsed by int() and converted to 0-based by
subtracting 1; a token whose position component is empty contributes no
index to the face. -/
theorem face_ref_position_only (p t n : String) (toks : List String)
    (hp : ∀ c ∈ p.data, c ≠ '/') :
    (∀ k, pyInt? p = some k →
      faceIndices (p :: toks) = (faceIndices toks).map (fun l => (k - 1) :: l) ∧
      faceIndices ((p ++ "/" ++ t) :: toks) =
        (faceIndices toks).map (fun l => (k - 1) :: l) ∧
      faceIndices ((p ++ "//" ++ n) :: toks) =
        (faceIndices toks).map (fun l => (k - 1) :: l) ∧
      faceIndices ((p ++ "/" ++ t ++ "/" ++ n) :: toks) =
        (faceIndices toks).map (fun l => (k - 1) :: l)) ∧
    (p = "" →
      faceIndices ((p ++ "/" ++ t) :: toks) = faceIndices toks) := by
  have e2 : p ++ "//" ++ n = p ++ "/" ++ ("/" ++ n) := by
    apply String.ext
    simp [String.data_append]
  have e3 : p ++ "/" ++ t ++ "/" ++ n = p ++ "/" ++ (t ++ "/" ++ n) := by
    apply String.ext
    simp [String.data_append]
  constructor
  · intro k hk
    refine ⟨faceIndices_cons_pos p p toks (posComponent_eq_self p hp) k hk,
      faceIndices_cons_pos _ p toks (posComponent_append p t hp) k hk, ?_, ?_⟩
    · rw [e2]
      exact faceIndices_cons_pos _ p toks (posComponent_append p ("/" ++ n) hp) k hk
    · rw [e3]
      exact faceIndices_cons_pos _ p toks
        (posComponent_append p (t ++ "/" ++ n) hp) k hk
  · intro h
    subst h
    exact faceIndices_cons_empty _ toks (posComponent_append "" t (by simp))

/-- Witness for C6: the face line tokens of "f 1/2/3 4//5 7" resolve to
the indices [0, 3, 6], the first of them through the theorem at p = 1,
t = 2, n = 3. -/
theorem face_ref_position_only_witness :
    faceIndices ["1/2/3", "4//5", "7"] = some [0, 3, 6] := by
  have h := (((face_ref_position_only "1" "2" "3" ["4//5", "7"]
      (by decide)).1) 1 (by decide)).2.2.2
  have e : "1" ++ "/" ++ "2" ++ "/" ++ "3" = "1/2/3" := by decide
  rw [e] at h
  rw [h]
  decide

/-- C7: a non-comment line whose tokens are v followed by at least
three tokens that float() accepts appends exactly one vertex made of
the first three parsed values, in order, ignoring any further tokens,
and leaves the face sequence unchanged. -/
theorem vertex_line_first_three (st : List Vertex × List (List Int))
    (line t1 t2 t3 : String) (rest : List String) (x y z : ℚ)
    (h1 : pyFloat? t1 = some x) (h2 : pyFloat? t2 = some y)
    (h3 : pyFloat? t3 = some z)
    (hna : startsHash line = false)
    (htok : pyTokens line = "v" :: t1 :: t2 :: t3 :: rest) :
    processLine st line = some (st.1 ++ [(x, y, z)], st.2) := by
  simp [processLine, hna, htok, processTokens, parseVertex, h1, h2, h3]

/-- Witness for C7: the line "v 1 2 3 4 5" appends exactly the vertex
(1, 2, 3). -/
theorem vertex_line_first_three_witness :
    processLine ([], []) "v 1 2 3 4 5" = some ([((1:ℚ), (2:ℚ), (3:ℚ))], []) :=
  vertex_line_first_three ([], []) "v 1 2 3 4 5" "1" "2" "3" ["4", "5"]
    1 2 3 (by decide) (by decide) (by decide) (by decide) (by decide)

theorem vnorm_eq_zero (v : V3) : vnorm v = 0 ↔ v = (0, 0, 0) := by
  obtain ⟨x, y, z⟩ := v
  simp only [vnorm]
  rw [Real.sqrt_eq_zero' ]
  constructor
  · intro h
    have hx2 : x ^ 2 = 0 :=
      le_antisymm (by nlinarith [sq_nonneg y, sq_nonneg z]) (sq_nonneg x)
    have hy2 : y ^ 2 = 0 :=
      le_antisymm (by nlinarith [sq_nonneg x, sq_nonneg z]) (sq_nonneg y)
    have hz2 : z ^ 2 = 0 :=
      le_antisymm (by nlinarith [sq_nonneg x, sq_nonneg y]) (sq_nonneg z)
    simp only [Prod.mk.injEq]
    exact ⟨pow_eq_zero_iff two_ne_zero |>.mp hx2,
      pow_eq_zero_iff two_ne_zero |>.mp hy2,
      pow_eq_zero_iff two_ne_zero |>.mp hz2⟩
  · intro h
    simp only [Prod.mk.injEq] at h
    obtain ⟨hx, hy, hz⟩ := h
    subst hx; subst hy; subst hz
    norm_num

theorem vnorm_normalize (v : V3) (h : v ≠ (0, 0, 0)) :
    vnorm (v.1 / vnorm v, v.2.1 / vnorm v, v.2.2 / vnorm v) = 1 := by
  obtain ⟨x, y, z⟩ := v
  simp only [ne_eq, Prod.mk.injEq, not_and] at h
  have hs : 0 < x ^ 2 + y ^ 2 + z ^ 2 := by
    by_cases hx : x = 0
    · by_cases hy : y = 0
      · have hz : z ≠ 0 := fun hz => h hx hy hz
        positivity
      · positivity
    · positivity
  have hr : 0 < Real.sqrt (x ^ 2 + y ^ 2 + z ^ 2) := Real.sqrt_pos.mpr hs
  have hr2 : Real.sqrt (x ^ 2 + y ^ 2 + z ^ 2) ^ 2 = x ^ 2 + y ^ 2 + z ^ 2 :=
    Real.sq_sqrt hs.le
  simp only [vnorm]
  have key : (x / Real.sqrt (x ^ 2 + y ^ 2 + z ^ 2)) ^ 2 +
      (y / Real.sqrt (x ^ 2 + y ^ 2 + z ^ 2)) ^ 2 +
      (z / Real.sqrt (x ^ 2 + y ^ 2 + z ^ 2)) ^ 2 = 1 := by
    field_simp
  rw [key, Real.sqrt_one]

/-- C8: compute_normal returns the cross product of v1 - v0 and
v2 - v0 divided by its norm, a vector of magnitude 1, whenever that
cross product is nonzero; when the cross product has norm zero it
returns exactly the fallback (0, 0, 1). -/
theorem compute_normal_spec (v0 v1 v2 : V3) :
    (vnorm (cross (vsub v1 v0) (vsub v2 v0)) = 0 →
      compute_normal v0 v1 v2 = (0, 0, 1)) ∧
    (cross (vsub v1 v0) (vsub v2 v0) ≠ (0, 0, 0) →
      compute_normal v0 v1 v2 =
        ((cross (vsub v1 v0) (vsub v2 v0)).1 /
            vnorm (cross (vsub v1 v0) (vsub v2 v0)),
         (cross (vsub v1 v0) (vsub v2 v0)).2.1 /
            vnorm (cross (vsub v1 v0) (vsub v2 v0)),
         (cross (vsub v1 v0) (vsub v2 v0)).2.2 /
            vnorm (cross (vsub v1 v0) (vsub v2 v0))) ∧
      vnorm (compute_normal v0 v1 v2) = 1) := by
  constructor
  · intro h
    rw [compute_normal, if_pos h]
  · intro h
    have hnz : vnorm (cross (vsub v1 v0) (vsub v2 v0)) ≠ 0 :=
      fun h0 => h ((vnorm_eq_zero _).mp h0)
    refine ⟨by rw [compute_normal, if_neg hnz], ?_⟩
    rw [compute_normal, if_neg hnz]
    exact vnorm_normalize _ h

/-- Witness for C8 on the right triangle (0,0,0), (1,0,0), (0,1,0):
its cross product is the nonzero (0, 0, 1) and the returned normal has
magnitude 1. -/
theorem compute_normal_spec_witness :
    cross (vsub ((1:ℝ), (0:ℝ), (0:ℝ)) (0, 0, 0)) (vsub (0, 1, 0) (0, 0, 0)) ≠
      (0, 0, 0) ∧
    vnorm (compute_normal ((0:ℝ), (0:ℝ), (0:ℝ)) (1, 0, 0) (0, 1, 0)) = 1 := by
  have hc : cross (vsub ((1:ℝ), (0:ℝ), (0:ℝ)) (0, 0, 0))
      (vsub (0, 1, 0) (0, 0, 0)) ≠ (0, 0, 0) := by
    norm_num [cross, vsub, Prod.mk.injEq]
  exact ⟨hc, ((compute_normal_spec (0, 0, 0) (1, 0, 0) (0, 1, 0)).2 hc).2⟩
